import Mathlib

/-!
Shallow embedding of the gowarcraft3 codec core: the primitive packet
buffer (pkg/util/packetbuffer.go) and the W3G record codec
(the w3g record file shipped with it), together with theorems that settle
the specification claims about them.

A buffer is modelled as the list of its unread bytes (`List Nat`, each
entry a byte value).  Writes append at the back; reads consume from the
front, exactly as the Go code does.  Fallible reads return `Except PErr`;
a Go runtime panic (slice index out of range) is modelled by the distinct
error value `PErr.panicked`.
-/

/-!
W3G record layer (the w3g record file under src).  Record identifiers are
the values given in the record doc comments of the source file.
-/

/-- Error sentinels of the codec layer.  `shortBuffer` models
`io.ErrShortBuffer` as returned by the w3g record deserializers, which the
spec calls `ErrInvalidPacketSize` at the packet layer; `badFormat` models
`w3g.ErrBadFormat`; `unexpectedConst` models `w3g.ErrUnexpectedConst`;
`noStringTerminator` models `util.ErrNoStringTerminatorFound`;
`invalidIP4` models `util.ErrInvalidIP4`; `invalidChecksum` models the
BNCS header-signature error; `panicked` marks a Go runtime panic. -/
inductive PErr where
  | shortBuffer
  | badFormat
  | unexpectedConst
  | noStringTerminator
  | invalidIP4
  | invalidChecksum
  | panicked
deriving DecidableEq

/-- PacketBuffer.WriteUInt8: append uint8 v to the buffer. -/
def writeUInt8 (b : List Nat) (v : Nat) : List Nat := b ++ [v % 256]

/-- PacketBuffer.WriteUInt16: append uint16 v little-endian. -/
def writeUInt16 (b : List Nat) (v : Nat) : List Nat :=
  b ++ [v % 256, v / 256 % 256]

/-- PacketBuffer.WriteUInt32: append uint32 v little-endian. -/
def writeUInt32 (b : List Nat) (v : Nat) : List Nat :=
  b ++ [v % 256, v / 256 % 256, v / 65536 % 256, v / 16777216 % 256]

/-- PacketBuffer.WriteBlob: append blob v to the buffer. -/
def writeBlob (b v : List Nat) : List Nat := b ++ v

/-- Modelled from the spec: protocol.Buffer.WriteBool32 writes a 4-byte
0/1 boolean (the w3gs buffer source is not under src; the spec lists
`bool32 (4-byte 0/1)` among the primitive codecs). -/
def writeBool32 (b : List Nat) (v : Bool) : List Nat :=
  writeUInt32 b (if v then 1 else 0)

/-- PacketBuffer.WriteString (= protocol.Buffer.WriteCString): append the
bytes of s followed by a zero terminator. -/
def writeString (b s : List Nat) : List Nat :=
  writeUInt8 (writeBlob b s) 0

/-- PacketBuffer.ReadUInt8: consume one byte.  Reading past the end of the
buffer panics in Go (index out of range), modelled by `PErr.panicked`. -/
def readUInt8 : List Nat → Except PErr (Nat × List Nat)
  | [] => .error .panicked
  | v :: rest => .ok (v, rest)

/-- PacketBuffer.ReadUInt16: consume a little-endian uint16. -/
def readUInt16 : List Nat → Except PErr (Nat × List Nat)
  | b0 :: b1 :: rest => .ok (b0 + 256 * b1, rest)
  | _ => .error .panicked

/-- PacketBuffer.ReadUInt32: consume a little-endian uint32. -/
def readUInt32 : List Nat → Except PErr (Nat × List Nat)
  | b0 :: b1 :: b2 :: b3 :: rest =>
      .ok (b0 + 256 * b1 + 65536 * b2 + 16777216 * b3, rest)
  | _ => .error .panicked

/-- Modelled from the spec: protocol.Buffer.ReadBool32 reads a 4-byte 0/1
boolean (nonzero reads as true). -/
def readBool32 (b : List Nat) : Except PErr (Bool × List Nat) :=
  match readUInt32 b with
  | .ok (v, rest) => .ok (decide (0 < v), rest)
  | .error e => .error e

/-- PacketBuffer.ReadBlob: consume a blob of size n.  For `n = 0` Go
returns nil without consuming; for `n` beyond the remaining bytes the
re-slice `b.Bytes[n:]` panics. -/
def readBlob (n : Nat) (b : List Nat) : Except PErr (List Nat × List Nat) :=
  if n = 0 then .ok ([], b)
  else if n ≤ b.length then .ok (b.take n, b.drop n)
  else .error .panicked

/-- PacketBuffer.Skip: consume n bytes, panicking when fewer remain. -/
def skip (n : Nat) (b : List Nat) : Except PErr (List Nat) :=
  if n ≤ b.length then .ok (b.drop n) else .error .panicked

/-- PacketBuffer.ReadString (= protocol.Buffer.ReadCString): scan for the
first zero byte; return the prefix before it and advance past the zero.
When no zero exists, return the empty string together with
`ErrNoStringTerminatorFound` and drain the buffer to empty.  The result is
`(value, optional error, remaining buffer)`. -/
def readString : List Nat → List Nat × Option PErr × List Nat
  | [] => ([], some .noStringTerminator, [])
  | c :: rest =>
      if c = 0 then ([], none, rest)
      else
        match readString rest with
        | (s, none, r) => (c :: s, none, r)
        | (_, some e, r) => ([], some e, r)

/-- ReadString repackaged with errors in `Except`, as record deserializers
consume it (they return the error unchanged when it is non-nil). -/
def readCString (b : List Nat) : Except PErr (List Nat × List Nat) :=
  match readString b with
  | (s, none, r) => .ok (s, r)
  | (_, some e, _) => .error e

/-- net.IP.To4 (Go standard library, as used by WriteIP): a 4-byte slice
is already IPv4; a 16-byte slice with the IPv4-in-IPv6 prefix maps to its
last four bytes; anything else is not an IPv4 address (nil). -/
def ipTo4 (ip : List Nat) : Option (List Nat) :=
  if ip.length = 4 then some ip
  else if ip.length = 16 ∧ ip.take 12 = [0, 0, 0, 0, 0, 0, 0, 0, 0, 0, 255, 255] then
    some (ip.drop 12)
  else none

/-- PacketBuffer.WriteIP: write the 4 IPv4 bytes of v; for a non-IPv4
address write a zero uint32 (four zero bytes) and return ErrInvalidIP4. -/
def writeIP (b : List Nat) (ip : List Nat) : List Nat × Option PErr :=
  match ipTo4 ip with
  | some ip4 => (writeBlob b ip4, none)
  | none => (writeUInt32 b 0, some .invalidIP4)

/-- Record identifier 0x10 (GameInfo record doc header). -/
def RidGameInfo : Nat := 0x10

/-- Record identifier 0x16 (PlayerInfo record doc header). -/
def RidPlayerInfo : Nat := 0x16

/-- Record identifier 0x17 (PlayerLeft record doc header). -/
def RidPlayerLeft : Nat := 0x17

/-- Record identifier 0x19 (SlotInfo record doc header). -/
def RidSlotInfo : Nat := 0x19

/-- Record identifier 0x1A (CountDownStart record doc header). -/
def RidCountDownStart : Nat := 0x1A

/-- Record identifier 0x1B (CountDownEnd record doc header). -/
def RidCountDownEnd : Nat := 0x1B

/-- Record identifier 0x1C (GameStart record doc header). -/
def RidGameStart : Nat := 0x1C

/-- Record identifier 0x1E (TimeSlot record doc header). -/
def RidTimeSlot : Nat := 0x1E

/-- Record identifier 0x1F (the second TimeSlot alias). -/
def RidTimeSlot2 : Nat := 0x1F

/-- Record identifier 0x20 (ChatMessage record doc header). -/
def RidChatMessage : Nat := 0x20

/-- Record identifier 0x22 (TimeSlotAck record doc header). -/
def RidTimeSlotAck : Nat := 0x22

/-- Record identifier 0x23 (Desync record doc header). -/
def RidDesync : Nat := 0x23

/-- Record identifier 0x2F (EndTimer record doc header). -/
def RidEndTimer : Nat := 0x2F

/-- Record identifier 0x39 (PlayerExtra record doc header). -/
def RidPlayerExtra : Nat := 0x39

/-- Modelled from the spec: w3gs.MsgChat, the message-type flag 0x10 for
delayed startup screen messages (ChatMessage record doc comment; the w3gs
constant definitions are not under src). -/
def MsgChat : Nat := 0x10

/-- Modelled from the spec: w3gs.MsgChatExtra, the message-type flag 0x20
for normal messages with a chat-mode dword. -/
def MsgChatExtra : Nat := 0x20

/-- Modelled from the spec: w3gs.ScopeAll, chat mode 0x00 for messages to
all players (ChatMessage record doc comment). -/
def ScopeAll : Nat := 0

/-- Encoding options for (de)serialization: `{game_version: u32}`. -/
structure Encoding where
  gameVersion : Nat
deriving DecidableEq

/-- w3gs.PlayerAction as used by the TimeSlot codec: a player id byte and
a data blob. -/
structure PlayerAction where
  playerID : Nat
  data : List Nat
deriving DecidableEq

/-- w3g.TimeSlot wrapping w3gs.TimeSlot: fragment flag, time increment in
milliseconds, and the list of player actions. -/
structure TimeSlot where
  fragment : Bool
  timeIncrementMS : Nat
  actions : List PlayerAction
deriving DecidableEq

/-- w3g.ChatMessage wrapping w3gs.Message.  Fields are the ones the w3g
codec touches: SenderID, RecipientIDs, Type (named msgType here), Scope,
NewVal, Content (strings as byte lists). -/
structure ChatMessage where
  senderID : Nat
  recipientIDs : List Nat
  msgType : Nat
  scope : Nat
  newVal : Nat
  content : List Nat
deriving DecidableEq

/-- w3g.PlayerInfo: ID, Name, Race (w3gs.RacePref as u32), JoinCounter. -/
structure PlayerInfo where
  id : Nat
  name : List Nat
  race : Nat
  joinCounter : Nat
deriving DecidableEq

/-- w3g.PlayerLeft: Local flag, PlayerID, Reason (u32), Counter. -/
structure PlayerLeft where
  isLocal : Bool
  playerID : Nat
  reason : Nat
  counter : Nat
deriving DecidableEq

/-- w3g.TimeSlotAck: the checksum blob. -/
structure TimeSlotAck where
  checksum : List Nat
deriving DecidableEq

/-- w3g.EndTimer: GameOver flag and countdown seconds. -/
structure EndTimer where
  gameOver : Bool
  countDownSec : Nat
deriving DecidableEq

/-- w3g.GameInfo.  The GameSettings member is kept as its raw encoded
null-terminated string: the w3gs.GameSettings codec is not under src, and
the GameInfo record doc comment describes that member only as one encoded
null-terminated string. -/
structure GameSettings where
  encoded : List Nat
deriving DecidableEq

/-- w3g.GameInfo fields as in the source struct. -/
structure GameInfo where
  hostPlayer : PlayerInfo
  gameName : List Nat
  gameSettings : GameSettings
  gameFlags : Nat
  numSlots : Nat
  languageID : Nat
deriving DecidableEq

/-- w3g.SlotInfo.  The embedded w3gs.SlotInfo content codec is not under
src; per the SlotInfo record doc comment the content starts with a word
counting the data bytes that follow, kept here as a raw blob. -/
structure SlotInfo where
  raw : List Nat
deriving DecidableEq

/-- w3g.Desync.  Modelled from the spec: the w3gs.Desync content codec is
not under src; the Desync record doc comment gives the content layout as
dword, byte, dword, byte. -/
structure Desync where
  f0 : Nat
  f1 : Nat
  f2 : Nat
  f3 : Nat
deriving DecidableEq

/-- w3g.PlayerExtra.  Modelled from the spec: the w3gs.PlayerExtra content
codec (protobuf) is not under src; the record doc comment gives a subtype
byte, a dword byte count, and the protobuf payload, kept raw. -/
structure PlayerExtra where
  subType : Nat
  blob : List Nat
deriving DecidableEq

/-- TimeSlot.Serialize inner loop: append each action as player id byte,
u16 data length, data blob. -/
def serializeActions (as : List PlayerAction) (b : List Nat) : List Nat :=
  as.foldl (fun b a => writeBlob (writeUInt16 (writeUInt8 b a.playerID) a.data.length) a.data) b

/-- PacketBuffer.WriteUInt16At: overwrite positions p and p+1 with the
little-endian bytes of v (used for the back-patched length). -/
def writeUInt16At (b : List Nat) (p v : Nat) : List Nat :=
  (b.set (p + 1) (v / 256 % 256)).set p (v % 256)

/-- TimeSlot.Serialize: tag 0x1F when Fragment or 1 ≤ game_version ≤ 2,
else 0x1E; then a placeholder u16 length, the time increment, the
actions, and the back-patched length. -/
def serializeTimeSlot (enc : Encoding) (rec : TimeSlot) (buf : List Nat) : List Nat :=
  let tag := if rec.fragment = true ∨ (0 < enc.gameVersion ∧ enc.gameVersion ≤ 2)
             then RidTimeSlot2 else RidTimeSlot
  let b := writeUInt16 (writeUInt8 buf tag) 0
  let start := b.length
  let b := serializeActions rec.actions (writeUInt16 b rec.timeIncrementMS)
  writeUInt16At b (start - 2) (b.length - start)

/-- TimeSlot.Deserialize action loop.  The fuel argument is an upper bound
on the number of loop iterations (each iteration consumes at least 3 of
the declared size, so any fuel at least the declared size suffices and
the `PErr.panicked` fuel-exhaustion branch is unreachable from
`deserializeTimeSlot`).  Mirrors the source: while 3 ≤ size, read a
player id byte and a u16 data length; fail with bad-format when the data
length exceeds the pre-header remaining size; read the data blob; on exit
report the leftover size for the final zero check. -/
def parseActions (fuel : Nat) (size : Int) (b : List Nat) (acc : List PlayerAction) :
    Except PErr (List PlayerAction × Int × List Nat) :=
  if 3 ≤ size then
    match fuel with
    | 0 => .error .panicked
    | fuel + 1 =>
      match readUInt8 b with
      | .error e => .error e
      | .ok (pid, b) =>
        match readUInt16 b with
        | .error e => .error e
        | .ok (subsize, b) =>
          if size < (subsize : Int) then .error .badFormat
          else
            match readBlob subsize b with
            | .error e => .error e
            | .ok (d, b) => parseActions fuel (size - 3 - subsize) b (acc ++ [⟨pid, d⟩])
  else .ok (acc, size, b)

/-- TimeSlot.Deserialize: guard five bytes; read the tag (Fragment is set
when it is 0x1F and game_version is 0 or above 2); read the declared u16
length; guard it; read the time increment; consume actions until the
declared length is exhausted; fail with bad-format unless it ends at
exactly zero. -/
def deserializeTimeSlot (enc : Encoding) (b : List Nat) :
    Except PErr (TimeSlot × List Nat) :=
  if b.length < 5 then .error .shortBuffer else
  match readUInt8 b with
  | .error e => .error e
  | .ok (tag, b) =>
    let fragment := decide (tag = RidTimeSlot2 ∧ (enc.gameVersion = 0 ∨ 2 < enc.gameVersion))
    match readUInt16 b with
    | .error e => .error e
    | .ok (sizeN, b) =>
      if sizeN < 2 ∨ b.length < sizeN then .error .shortBuffer else
      match readUInt16 b with
      | .error e => .error e
      | .ok (time, b) =>
        match parseActions sizeN ((sizeN : Int) - 2) b [] with
        | .error e => .error e
        | .ok (acts, rsize, b) =>
          if rsize ≠ 0 then .error .badFormat
          else .ok (⟨fragment, time, acts⟩, b)

/-- ChatMessage.Serialize: tag, sender byte, a u16 length (6 + content
length for chat-extra, 2 + content length for chat, 2 otherwise), the
type byte, then scope dword and/or content cstring or the NewVal byte. -/
def serializeChatMessage (_enc : Encoding) (rec : ChatMessage) (buf : List Nat) : List Nat :=
  let b := writeUInt8 (writeUInt8 buf RidChatMessage) rec.senderID
  let b := if rec.msgType = MsgChatExtra then writeUInt16 b (6 + rec.content.length)
           else if rec.msgType = MsgChat then writeUInt16 b (2 + rec.content.length)
           else writeUInt16 b 2
  let b := writeUInt8 b rec.msgType
  if rec.msgType = MsgChatExtra then writeString (writeUInt32 b rec.scope) rec.content
  else if rec.msgType = MsgChat then writeString b rec.content
  else writeUInt8 b rec.newVal

/-- Modelled from the spec: unicode.IsPrint restricted to single-byte
(ASCII) code points, as applied byte-wise by the continuation-string
check (strings.IndexFunc over the decoded runes; the Go unicode tables
are not under src).  ASCII 0x20..0x7E is printable. -/
def isPrintByte (c : Nat) : Bool := 0x20 ≤ c && c ≤ 0x7E

/-- ChatMessage.Deserialize continuation loop (the nwg quirk): while the
declared size is not exhausted, read another cstring, require every
character printable, and append it to the content; afterwards fail with
bad-format unless the size ended at exactly zero.  Fuel bounds the
iteration count (each iteration consumes at least 1 of the size, so fuel
at least the declared size suffices and the fuel-exhaustion branch is
unreachable from `deserializeChatMessage`). -/
def parseExtraStrings (fuel : Nat) (size : Int) (b acc : List Nat) :
    Except PErr (List Nat × List Nat) :=
  if 0 < size then
    match fuel with
    | 0 => .error .panicked
    | fuel + 1 =>
      match readCString b with
      | .error e => .error e
      | .ok (s, b) =>
        if s.any (fun c => !isPrintByte c) then .error .badFormat
        else parseExtraStrings fuel (size - (s.length + 1)) b (acc ++ s)
  else if size = 0 then .ok (acc, b) else .error .badFormat

/-- ChatMessage.Deserialize: guard three bytes; skip the tag; read sender
and the declared u16 length; guard it; read the type byte; then per type
read scope and/or content (with the continuation quirk) or NewVal. -/
def deserializeChatMessage (_enc : Encoding) (b : List Nat) :
    Except PErr (ChatMessage × List Nat) :=
  if b.length < 3 then .error .shortBuffer else
  match skip 1 b with
  | .error e => .error e
  | .ok b =>
    match readUInt8 b with
    | .error e => .error e
    | .ok (sender, b) =>
      match readUInt16 b with
      | .error e => .error e
      | .ok (sizeN, b) =>
        if sizeN < 2 ∨ b.length < sizeN then .error .shortBuffer else
        match readUInt8 b with
        | .error e => .error e
        | .ok (ty, b) =>
          if ty = MsgChatExtra then
            if sizeN < 6 then .error .badFormat else
            match readUInt32 b with
            | .error e => .error e
            | .ok (scope, b) =>
              match readCString b with
              | .error e => .error e
              | .ok (content, b) =>
                match parseExtraStrings sizeN ((sizeN : Int) - 4 - 2 - content.length) b content with
                | .error e => .error e
                | .ok (content, b) => .ok (⟨sender, [], ty, scope, 0, content⟩, b)
          else if ty = MsgChat then
            match readCString b with
            | .error e => .error e
            | .ok (content, b) =>
              match parseExtraStrings sizeN ((sizeN : Int) - 2 - content.length) b content with
              | .error e => .error e
              | .ok (content, b) => .ok (⟨sender, [], ty, ScopeAll, 0, content⟩, b)
          else
            if sizeN ≠ 2 then .error .badFormat else
            match readUInt8 b with
            | .error e => .error e
            | .ok (nv, b) => .ok (⟨sender, [], ty, ScopeAll, nv, []⟩, b)

/-- PlayerInfo.SerializeContent: id byte, name cstring, then either the
custom marker (1, 0) when JoinCounter and Race are both zero, or the
ladder marker 8 followed by JoinCounter and Race dwords. -/
def serializePlayerInfoContent (rec : PlayerInfo) (b : List Nat) : List Nat :=
  let b := writeString (writeUInt8 b rec.id) rec.name
  if rec.joinCounter = 0 ∧ rec.race = 0 then
    writeUInt8 (writeUInt8 b 1) 0
  else
    writeUInt32 (writeUInt32 (writeUInt8 b 8) rec.joinCounter) rec.race

/-- PlayerInfo.Serialize: tag, content, and an unknown zero dword. -/
def serializePlayerInfo (_enc : Encoding) (rec : PlayerInfo) (b : List Nat) : List Nat :=
  writeUInt32 (serializePlayerInfoContent rec (writeUInt8 b RidPlayerInfo)) 0

/-- PlayerInfo.DeserializeContent: guard four bytes; read id and name;
guard two bytes; read the additional-data length byte and guard it; 0x01
and 0x02 are skipped and fall through to the 0x00 reset, 0x08 carries
JoinCounter and Race dwords, anything else is an unexpected constant. -/
def deserializePlayerInfoContent (b : List Nat) :
    Except PErr (PlayerInfo × List Nat) :=
  if b.length < 4 then .error .shortBuffer else
  match readUInt8 b with
  | .error e => .error e
  | .ok (id, b) =>
    match readCString b with
    | .error e => .error e
    | .ok (name, b) =>
      if b.length < 2 then .error .shortBuffer else
      match readUInt8 b with
      | .error e => .error e
      | .ok (len, b) =>
        if b.length < len then .error .shortBuffer else
        if len = 1 ∨ len = 2 then
          match skip len b with
          | .error e => .error e
          | .ok b => .ok (⟨id, name, 0, 0⟩, b)
        else if len = 0 then .ok (⟨id, name, 0, 0⟩, b)
        else if len = 8 then
          match readUInt32 b with
          | .error e => .error e
          | .ok (jc, b) =>
            match readUInt32 b with
            | .error e => .error e
            | .ok (race, b) => .ok (⟨id, name, race, jc⟩, b)
        else .error .unexpectedConst

/-- PlayerInfo.Deserialize: guard nine bytes; skip the tag; content; then
guard and skip the four unknown bytes. -/
def deserializePlayerInfo (_enc : Encoding) (b : List Nat) :
    Except PErr (PlayerInfo × List Nat) :=
  if b.length < 9 then .error .shortBuffer else
  match skip 1 b with
  | .error e => .error e
  | .ok b =>
    match deserializePlayerInfoContent b with
    | .error e => .error e
    | .ok (rec, b) =>
      if b.length < 4 then .error .shortBuffer else
      match skip 4 b with
      | .error e => .error e
      | .ok b => .ok (rec, b)

/-- PlayerLeft.Serialize: tag, reason dword 0x0C when Local else 0x01,
player id byte, result dword, counter dword. -/
def serializePlayerLeft (_enc : Encoding) (rec : PlayerLeft) (b : List Nat) : List Nat :=
  let b := writeUInt8 b RidPlayerLeft
  let b := if rec.isLocal = true then writeUInt32 b 0x0C else writeUInt32 b 0x01
  writeUInt32 (writeUInt32 (writeUInt8 b rec.playerID) rec.reason) rec.counter

/-- PlayerLeft.Deserialize: guard fourteen bytes; skip the tag; map the
reason dword 0x01/0x0E to Local false and 0x0C to Local true, anything
else an unexpected constant; then player id, result, counter. -/
def deserializePlayerLeft (_enc : Encoding) (b : List Nat) :
    Except PErr (PlayerLeft × List Nat) :=
  if b.length < 14 then .error .shortBuffer else
  match skip 1 b with
  | .error e => .error e
  | .ok b =>
    match readUInt32 b with
    | .error e => .error e
    | .ok (r, b) =>
      if r = 0x01 ∨ r = 0x0E then
        match readUInt8 b with
        | .error e => .error e
        | .ok (pid, b) =>
          match readUInt32 b with
          | .error e => .error e
          | .ok (reason, b) =>
            match readUInt32 b with
            | .error e => .error e
            | .ok (counter, b) => .ok (⟨false, pid, reason, counter⟩, b)
      else if r = 0x0C then
        match readUInt8 b with
        | .error e => .error e
        | .ok (pid, b) =>
          match readUInt32 b with
          | .error e => .error e
          | .ok (reason, b) =>
            match readUInt32 b with
            | .error e => .error e
            | .ok (counter, b) => .ok (⟨true, pid, reason, counter⟩, b)
      else .error .unexpectedConst

/-- GameStart.Serialize: tag 0x1C and the constant dword 1. -/
def serializeGameStart (_enc : Encoding) (b : List Nat) : List Nat :=
  writeUInt32 (writeUInt8 b RidGameStart) 0x01

/-- CountDownStart.Serialize: tag 0x1A and the constant dword 1. -/
def serializeCountDownStart (_enc : Encoding) (b : List Nat) : List Nat :=
  writeUInt32 (writeUInt8 b RidCountDownStart) 0x01

/-- CountDownEnd.Serialize: tag 0x1B and the constant dword 1. -/
def serializeCountDownEnd (_enc : Encoding) (b : List Nat) : List Nat :=
  writeUInt32 (writeUInt8 b RidCountDownEnd) 0x01

/-- GameStart.Deserialize (inherited unchanged by CountDownStart and
CountDownEnd): guard five bytes; skip the tag; require the dword 1. -/
def deserializeGameStart (_enc : Encoding) (b : List Nat) :
    Except PErr (List Nat) :=
  if b.length < 5 then .error .shortBuffer else
  match skip 1 b with
  | .error e => .error e
  | .ok b =>
    match readUInt32 b with
    | .error e => .error e
    | .ok (c, b) => if c ≠ 0x01 then .error .unexpectedConst else .ok b

/-- TimeSlotAck.Serialize: tag 0x22 for game_version 0 or above 2, the
reused tag 0x20 otherwise; then the checksum length byte and blob. -/
def serializeTimeSlotAck (enc : Encoding) (rec : TimeSlotAck) (b : List Nat) : List Nat :=
  let tag := if enc.gameVersion = 0 ∨ 2 < enc.gameVersion
             then RidTimeSlotAck else RidChatMessage
  writeBlob (writeUInt8 (writeUInt8 b tag) rec.checksum.length) rec.checksum

/-- TimeSlotAck.Deserialize: guard two bytes; skip the tag; read the
length byte, guard it, and read the checksum blob. -/
def deserializeTimeSlotAck (_enc : Encoding) (b : List Nat) :
    Except PErr (TimeSlotAck × List Nat) :=
  if b.length < 2 then .error .shortBuffer else
  match skip 1 b with
  | .error e => .error e
  | .ok b =>
    match readUInt8 b with
    | .error e => .error e
    | .ok (n, b) =>
      if b.length < n then .error .shortBuffer else
      match readBlob n b with
      | .error e => .error e
      | .ok (cs, b) => .ok (⟨cs⟩, b)

/-- EndTimer.Serialize: tag, GameOver bool32, countdown dword. -/
def serializeEndTimer (_enc : Encoding) (rec : EndTimer) (b : List Nat) : List Nat :=
  writeUInt32 (writeBool32 (writeUInt8 b RidEndTimer) rec.gameOver) rec.countDownSec

/-- EndTimer.Deserialize: guard nine bytes; skip the tag; read the
GameOver bool32 and the countdown dword. -/
def deserializeEndTimer (_enc : Encoding) (b : List Nat) :
    Except PErr (EndTimer × List Nat) :=
  if b.length < 9 then .error .shortBuffer else
  match skip 1 b with
  | .error e => .error e
  | .ok b =>
    match readBool32 b with
    | .error e => .error e
    | .ok (go, b) =>
      match readUInt32 b with
      | .error e => .error e
      | .ok (cd, b) => .ok (⟨go, cd⟩, b)

/-- GameSettings content codec.  Modelled from the spec: the
w3gs.GameSettings codec is not under src; the GameInfo record doc comment
describes this member as a single encoded null-terminated string, kept
raw here. -/
def deserializeGameSettingsContent (b : List Nat) :
    Except PErr (GameSettings × List Nat) :=
  match readCString b with
  | .error e => .error e
  | .ok (s, b) => .ok (⟨s⟩, b)

/-- GameInfo.Deserialize: guard twenty-four bytes; skip the tag; require
the host-record-count dword 1; host PlayerInfo content; guards around the
game name cstring and its null byte; the encoded settings string; then
NumSlots, GameFlags and LanguageID dwords. -/
def deserializeGameInfo (_enc : Encoding) (b : List Nat) :
    Except PErr (GameInfo × List Nat) :=
  if b.length < 24 then .error .shortBuffer else
  match skip 1 b with
  | .error e => .error e
  | .ok b =>
    match readUInt32 b with
    | .error e => .error e
    | .ok (c, b) =>
      if c ≠ 1 then .error .unexpectedConst else
      match deserializePlayerInfoContent b with
      | .error e => .error e
      | .ok (host, b) =>
        if b.length < 15 then .error .shortBuffer else
        match readCString b with
        | .error e => .error e
        | .ok (name, b) =>
          if b.length < 14 then .error .shortBuffer else
          match readUInt8 b with
          | .error e => .error e
          | .ok (z, b) =>
            if z ≠ 0 then .error .unexpectedConst else
            match deserializeGameSettingsContent b with
            | .error e => .error e
            | .ok (gs, b) =>
              if b.length < 12 then .error .shortBuffer else
              match readUInt32 b with
              | .error e => .error e
              | .ok (numSlots, b) =>
                match readUInt32 b with
                | .error e => .error e
                | .ok (flags, b) =>
                  match readUInt32 b with
                  | .error e => .error e
                  | .ok (lang, b) =>
                    .ok (⟨host, name, gs, flags, numSlots, lang⟩, b)

/-- SlotInfo.Deserialize: guard ten bytes; skip the tag; then the
embedded w3gs.SlotInfo content.  Modelled from the spec: that content
codec is not under src; the record doc comment starts it with a word
counting the data bytes that follow, kept raw here. -/
def deserializeSlotInfo (_enc : Encoding) (b : List Nat) :
    Except PErr (SlotInfo × List Nat) :=
  if b.length < 10 then .error .shortBuffer else
  match skip 1 b with
  | .error e => .error e
  | .ok b =>
    match readUInt16 b with
    | .error e => .error e
    | .ok (n, b) =>
      if b.length < n then .error .shortBuffer else
      match readBlob n b with
      | .error e => .error e
      | .ok (raw, b) => .ok (⟨raw⟩, b)

/-- Desync.Deserialize: guard eleven bytes; skip the tag; then the
embedded w3gs.Desync content.  Modelled from the spec: that content codec
is not under src; the record doc comment gives dword, byte, dword, byte. -/
def deserializeDesync (_enc : Encoding) (b : List Nat) :
    Except PErr (Desync × List Nat) :=
  if b.length < 11 then .error .shortBuffer else
  match skip 1 b with
  | .error e => .error e
  | .ok b =>
    match readUInt32 b with
    | .error e => .error e
    | .ok (f0, b) =>
      match readUInt8 b with
      | .error e => .error e
      | .ok (f1, b) =>
        match readUInt32 b with
        | .error e => .error e
        | .ok (f2, b) =>
          match readUInt8 b with
          | .error e => .error e
          | .ok (f3, b) => .ok (⟨f0, f1, f2, f3⟩, b)

/-- PlayerExtra.Deserialize: guard six bytes; skip the tag; then the
embedded w3gs.PlayerExtra content.  Modelled from the spec: that content
codec (protobuf) is not under src; the record doc comment gives a subtype
byte, a dword byte count, and the payload, kept raw here. -/
def deserializePlayerExtra (_enc : Encoding) (b : List Nat) :
    Except PErr (PlayerExtra × List Nat) :=
  if b.length < 6 then .error .shortBuffer else
  match skip 1 b with
  | .error e => .error e
  | .ok b =>
    match readUInt8 b with
    | .error e => .error e
    | .ok (st, b) =>
      match readUInt32 b with
      | .error e => .error e
      | .ok (n, b) =>
        if b.length < n then .error .shortBuffer else
        match readBlob n b with
        | .error e => .error e
        | .ok (blob, b) => .ok (⟨st, blob⟩, b)

/-- Modelled from the spec: the BNCS framed deserializer entry (spec
section 4.2; the bncs package code is not under src): require four header
bytes, else the invalid-packet-size error; require the 0xFF signature,
else the checksum error; then the packet id and declared length. -/
def deserializeBNCSHeader (b : List Nat) : Except PErr (Nat × Nat × List Nat) :=
  if b.length < 4 then .error .shortBuffer else
  match readUInt8 b with
  | .error e => .error e
  | .ok (sig, b) =>
    if sig ≠ 0xFF then .error .invalidChecksum else
    match readUInt8 b with
    | .error e => .error e
    | .ok (id, b) =>
      match readUInt16 b with
      | .error e => .error e
      | .ok (len, b) => .ok (id, len, b)

/-- The record types known to the W3G factory. -/
inductive RecTy where
  | gameInfo
  | playerInfo
  | playerLeft
  | slotInfo
  | countDownStart
  | countDownEnd
  | gameStart
  | timeSlot
  | chatMessage
  | timeSlotAck
  | desync
  | endTimer
  | playerExtra
deriving DecidableEq

/-- DefaultFactory: record id to record type.  Tag 0x20 yields ChatMessage
when game_version is 0 or above 2 and TimeSlotAck otherwise; 0x1E and
0x1F both yield TimeSlot. -/
def DefaultFactory (enc : Encoding) (rid : Nat) : Option RecTy :=
  if rid = RidGameInfo then some .gameInfo
  else if rid = RidPlayerInfo then some .playerInfo
  else if rid = RidPlayerLeft then some .playerLeft
  else if rid = RidSlotInfo then some .slotInfo
  else if rid = RidCountDownStart then some .countDownStart
  else if rid = RidCountDownEnd then some .countDownEnd
  else if rid = RidGameStart then some .gameStart
  else if rid = RidTimeSlot2 then some .timeSlot
  else if rid = RidTimeSlot then some .timeSlot
  else if rid = RidChatMessage then
    some (if enc.gameVersion = 0 ∨ 2 < enc.gameVersion then .chatMessage else .timeSlotAck)
  else if rid = RidTimeSlotAck then some .timeSlotAck
  else if rid = RidDesync then some .desync
  else if rid = RidEndTimer then some .endTimer
  else if rid = RidPlayerExtra then some .playerExtra
  else none

/-- The error outcome (if any) of deserializing a buffer as the given
record type, used to state the short-buffer claim uniformly over the
whole catalog. -/
def deserializeErr (ty : RecTy) (enc : Encoding) (b : List Nat) : Option PErr :=
  match ty with
  | .gameInfo => match deserializeGameInfo enc b with | .error e => some e | .ok _ => none
  | .playerInfo => match deserializePlayerInfo enc b with | .error e => some e | .ok _ => none
  | .playerLeft => match deserializePlayerLeft enc b with | .error e => some e | .ok _ => none
  | .slotInfo => match deserializeSlotInfo enc b with | .error e => some e | .ok _ => none
  | .countDownStart => match deserializeGameStart enc b with | .error e => some e | .ok _ => none
  | .countDownEnd => match deserializeGameStart enc b with | .error e => some e | .ok _ => none
  | .gameStart => match deserializeGameStart enc b with | .error e => some e | .ok _ => none
  | .timeSlot => match deserializeTimeSlot enc b with | .error e => some e | .ok _ => none
  | .chatMessage => match deserializeChatMessage enc b with | .error e => some e | .ok _ => none
  | .timeSlotAck => match deserializeTimeSlotAck enc b with | .error e => some e | .ok _ => none
  | .desync => match deserializeDesync enc b with | .error e => some e | .ok _ => none
  | .endTimer => match deserializeEndTimer enc b with | .error e => some e | .ok _ => none
  | .playerExtra => match deserializePlayerExtra enc b with | .error e => some e | .ok _ => none

/-- Sum of the record variants whose codecs are fully contained in the
source file, for the round-trip law. -/
inductive Rec where
  | playerInfo (r : PlayerInfo)
  | playerLeft (r : PlayerLeft)
  | gameStart
  | countDownStart
  | countDownEnd
  | timeSlot (r : TimeSlot)
  | chatMessage (r : ChatMessage)
  | timeSlotAck (r : TimeSlotAck)
  | endTimer (r : EndTimer)
deriving DecidableEq

/-- Serialize a record variant (dispatching on the variant, as the Go
interface method does). -/
def serializeRec (enc : Encoding) : Rec → List Nat → List Nat
  | .playerInfo r, b => serializePlayerInfo enc r b
  | .playerLeft r, b => serializePlayerLeft enc r b
  | .gameStart, b => serializeGameStart enc b
  | .countDownStart, b => serializeCountDownStart enc b
  | .countDownEnd, b => serializeCountDownEnd enc b
  | .timeSlot r, b => serializeTimeSlot enc r b
  | .chatMessage r, b => serializeChatMessage enc r b
  | .timeSlotAck r, b => serializeTimeSlotAck enc r b
  | .endTimer r, b => serializeEndTimer enc r b

/-- Deserialize a buffer as the variant of the given record value (the
reference tests call Deserialize on a value of the same type that was
serialized). -/
def deserializeSameTy (enc : Encoding) (r : Rec) (b : List Nat) :
    Except PErr (Rec × List Nat) :=
  match r with
  | .playerInfo _ =>
      match deserializePlayerInfo enc b with
      | .error e => .error e
      | .ok (r, rest) => .ok (.playerInfo r, rest)
  | .playerLeft _ =>
      match deserializePlayerLeft enc b with
      | .error e => .error e
      | .ok (r, rest) => .ok (.playerLeft r, rest)
  | .gameStart =>
      match deserializeGameStart enc b with
      | .error e => .error e
      | .ok rest => .ok (.gameStart, rest)
  | .countDownStart =>
      match deserializeGameStart enc b with
      | .error e => .error e
      | .ok rest => .ok (.countDownStart, rest)
  | .countDownEnd =>
      match deserializeGameStart enc b with
      | .error e => .error e
      | .ok rest => .ok (.countDownEnd, rest)
  | .timeSlot _ =>
      match deserializeTimeSlot enc b with
      | .error e => .error e
      | .ok (r, rest) => .ok (.timeSlot r, rest)
  | .chatMessage _ =>
      match deserializeChatMessage enc b with
      | .error e => .error e
      | .ok (r, rest) => .ok (.chatMessage r, rest)
  | .timeSlotAck _ =>
      match deserializeTimeSlotAck enc b with
      | .error e => .error e
      | .ok (r, rest) => .ok (.timeSlotAck r, rest)
  | .endTimer _ =>
      match deserializeEndTimer enc b with
      | .error e => .error e
      | .ok (r, rest) => .ok (.endTimer r, rest)

deriving instance DecidableEq for Except

/-- The bytes the TimeSlot serializer appends for a list of actions. -/
def actsBytes : List PlayerAction → List Nat
  | [] => []
  | a :: as =>
      (a.playerID % 256 :: a.data.length % 256 :: a.data.length / 256 % 256 :: a.data)
        ++ actsBytes as

/-- Declared size contributed by a list of actions: 3 header bytes plus
the data for each. -/
def actionsSize : List PlayerAction → Nat
  | [] => 0
  | a :: as => 3 + a.data.length + actionsSize as

/-- Well-formedness of a record value: numeric fields fit their wire
widths, strings contain no zero byte, fields the variant's type does not
serialize are at their reset values, TimeSlot sizes fit the u16 length
field, and the TimeSlot fragment flag is not set under game versions 1-2
(where tag 0x1F is forced and the flag is not recoverable). -/
def wfRec (enc : Encoding) : Rec → Prop
  | .playerInfo r => r.id < 256 ∧ 0 ∉ r.name ∧ r.joinCounter < 4294967296 ∧
      r.race < 4294967296
  | .playerLeft r => r.playerID < 256 ∧ r.reason < 4294967296 ∧ r.counter < 4294967296
  | .gameStart => True
  | .countDownStart => True
  | .countDownEnd => True
  | .timeSlot r => r.timeIncrementMS < 65536 ∧
      (∀ a ∈ r.actions, a.playerID < 256 ∧ a.data.length < 65536) ∧
      2 + actionsSize r.actions < 65536 ∧
      ((enc.gameVersion = 0 ∨ 2 < enc.gameVersion) ∨ r.fragment = false)
  | .chatMessage r => r.senderID < 256 ∧ r.recipientIDs = [] ∧
      ((r.msgType = MsgChatExtra ∧ r.scope < 4294967296 ∧ r.newVal = 0 ∧
          0 ∉ r.content ∧ 6 + r.content.length < 65536) ∨
        (r.msgType = MsgChat ∧ r.scope = ScopeAll ∧ r.newVal = 0 ∧
          0 ∉ r.content ∧ 2 + r.content.length < 65536) ∨
        (r.msgType < 256 ∧ r.msgType ≠ MsgChat ∧ r.msgType ≠ MsgChatExtra ∧
          r.scope = ScopeAll ∧ r.newVal < 256 ∧ r.content = []))
  | .timeSlotAck r => r.checksum.length < 256
  | .endTimer r => r.countDownSec < 4294967296

/-- Concatenation of strings each followed by a zero terminator, the
byte form of a run of continuation cstrings. -/
def joinNull : List (List Nat) → List Nat
  | [] => []
  | s :: ss => s ++ 0 :: joinNull ss

/-- Plain concatenation of a list of strings. -/
def catStrs : List (List Nat) → List Nat
  | [] => []
  | s :: ss => s ++ catStrs ss

theorem readString_no_zero {b : List Nat} (h : 0 ∉ b) :
    readString b = ([], some .noStringTerminator, []) := by
  induction b with
  | nil => rfl
  | cons c rest ih =>
      have hc : c ≠ 0 := fun hc => h (by simp [hc])
      have hr : 0 ∉ rest := fun hr => h (by simp [hr])
      simp [readString, hc, ih hr]

theorem readString_finds_zero {pre : List Nat} (post : List Nat) (h : 0 ∉ pre) :
    readString (pre ++ 0 :: post) = (pre, none, post) := by
  induction pre with
  | nil => simp [readString]
  | cons c rest ih =>
      have hc : c ≠ 0 := fun hc => h (by simp [hc])
      have hr : 0 ∉ rest := fun hr => h (by simp [hr])
      simp [readString, hc, ih hr]

/-- C8: reading a null-terminated string from a buffer with no zero byte
fails with the distinct no-terminator error, yields the empty string, and
drains the buffer to empty; on a buffer containing a zero byte it returns
the prefix before the first zero and advances past that zero. -/
theorem C8_readString_terminator (b pre post : List Nat) :
    (0 ∉ b → readString b = ([], some .noStringTerminator, [])) ∧
    (0 ∉ pre → readString (pre ++ 0 :: post) = (pre, none, post)) :=
  ⟨fun h => readString_no_zero h, fun h => readString_finds_zero post h⟩

/-- Witness for C8 at concrete buffers. -/
theorem C8_readString_terminator_witness :
    readString [7, 9] = ([], some .noStringTerminator, []) ∧
    readString ([5] ++ 0 :: [8]) = ([5], none, [8]) :=
  ⟨(C8_readString_terminator [7, 9] [5] [8]).1 (by decide),
   (C8_readString_terminator [7, 9] [5] [8]).2 (by decide)⟩

theorem ipTo4_length {ip ip4 : List Nat} (h : ipTo4 ip = some ip4) :
    ip4.length = 4 := by
  unfold ipTo4 at h
  split at h
  · cases h; omega
  · split at h
    · cases h
      simp
      omega
    · cases h

/-- C9: writing a non-IPv4 address appends exactly four zero bytes and
returns the invalid-IPv4 error, so the buffer still grows by exactly four
bytes; writing an IPv4 address appends its four address bytes with no
error. -/
theorem C9_writeIP_padding (b ip : List Nat) :
    (ipTo4 ip = none →
      writeIP b ip = (b ++ [0, 0, 0, 0], some .invalidIP4) ∧
      (writeIP b ip).1.length = b.length + 4) ∧
    (∀ ip4, ipTo4 ip = some ip4 →
      writeIP b ip = (b ++ ip4, none) ∧ ip4.length = 4) := by
  constructor
  · intro h
    simp [writeIP, h, writeUInt32, writeBlob]
  · intro ip4 h
    exact ⟨by simp [writeIP, h, writeBlob], ipTo4_length h⟩

/-- Witness for C9: a 3-byte value is not IPv4; 1.1.1.1 is. -/
theorem C9_writeIP_padding_witness :
    (writeIP [9] [1, 2, 3] = ([9, 0, 0, 0, 0], some .invalidIP4) ∧
      (writeIP [9] [1, 2, 3]).1.length = 5) ∧
    (writeIP [9] [1, 1, 1, 1] = ([9, 1, 1, 1, 1], none) ∧
      ([1, 1, 1, 1] : List Nat).length = 4) :=
  ⟨(C9_writeIP_padding [9] [1, 2, 3]).1 (by decide),
   (C9_writeIP_padding [9] [1, 1, 1, 1]).2 [1, 1, 1, 1] (by decide)⟩

/-- C10: WriteString followed by ReadString returns the original string
exactly when it contains no zero byte; with an interior zero the round
trip still succeeds but yields a strict prefix of the original. -/
theorem C10_writeString_readString (s : List Nat) :
    (0 ∉ s → readString (writeString [] s) = (s, none, [])) ∧
    (readString (writeString [] [97, 0, 98]) = ([97], none, [98, 0]) ∧
      ([97] : List Nat) ≠ [97, 0, 98] ∧ [97] ++ [0, 98] = [97, 0, 98]) := by
  constructor
  · intro h
    have : writeString [] s = s ++ 0 :: [] := by
      simp [writeString, writeBlob, writeUInt8]
    rw [this, readString_finds_zero [] h]
  · refine ⟨?_, by decide, by decide⟩
    have : writeString [] [97, 0, 98] = [97] ++ 0 :: [98, 0] := by decide
    rw [this, readString_finds_zero [98, 0] (by decide)]

/-- Witness for C10 at a concrete zero-free string. -/
theorem C10_writeString_readString_witness :
    readString (writeString [] [104, 105]) = ([104, 105], none, []) :=
  (C10_writeString_readString [104, 105]).1 (by decide)

theorem readUInt8_cons (x : Nat) (r : List Nat) : readUInt8 (x :: r) = .ok (x, r) := rfl

theorem readUInt16_cons (x y : Nat) (r : List Nat) :
    readUInt16 (x :: y :: r) = .ok (x + 256 * y, r) := rfl

theorem readUInt32_cons (x y z w : Nat) (r : List Nat) :
    readUInt32 (x :: y :: z :: w :: r) =
      .ok (x + 256 * y + 65536 * z + 16777216 * w, r) := rfl

theorem readUInt16_le {v : Nat} (r : List Nat) (hv : v < 65536) :
    readUInt16 (v % 256 :: v / 256 % 256 :: r) = .ok (v, r) := by
  rw [readUInt16_cons]
  congr 1
  congr 1
  omega

theorem readUInt32_le {v : Nat} (r : List Nat) (hv : v < 4294967296) :
    readUInt32 (v % 256 :: v / 256 % 256 :: v / 65536 % 256 :: v / 16777216 % 256 :: r) =
      .ok (v, r) := by
  rw [readUInt32_cons]
  congr 1
  congr 1
  omega

theorem readCString_terminated {s : List Nat} (r : List Nat) (h : 0 ∉ s) :
    readCString (s ++ 0 :: r) = .ok (s, r) := by
  unfold readCString
  rw [readString_finds_zero r h]

theorem readBlob_exact (l r : List Nat) : readBlob l.length (l ++ r) = .ok (l, r) := by
  unfold readBlob
  rcases l with _ | ⟨x, t⟩
  · simp
  · rw [if_neg (by simp), if_pos (by simp)]
    simp

theorem skip_cons (x : Nat) (r : List Nat) : skip 1 (x :: r) = .ok r := by
  unfold skip
  rw [if_pos (by simp)]
  rfl

theorem skip_exact (l r : List Nat) : skip l.length (l ++ r) = .ok r := by
  unfold skip
  rw [if_pos (by simp)]
  simp

theorem actsBytes_length (as : List PlayerAction) :
    (actsBytes as).length = actionsSize as := by
  induction as with
  | nil => rfl
  | cons a as ih => simp [actsBytes, actionsSize, ih]; omega

theorem length_le_actionsSize (as : List PlayerAction) :
    as.length ≤ actionsSize as := by
  induction as with
  | nil => simp [actionsSize]
  | cons a as ih => simp [actionsSize]; omega

theorem serializeActions_eq (as : List PlayerAction) (b : List Nat) :
    serializeActions as b = b ++ actsBytes as := by
  induction as generalizing b with
  | nil => simp [serializeActions, actsBytes]
  | cons a as ih =>
      simp only [serializeActions, List.foldl_cons] at *
      rw [ih]
      simp [writeBlob, writeUInt16, writeUInt8, actsBytes]

theorem parseActions_ok (as : List PlayerAction) :
    ∀ (fuel : Nat) (acc : List PlayerAction) (rest : List Nat),
      as.length ≤ fuel →
      (∀ a ∈ as, a.playerID < 256 ∧ a.data.length < 65536) →
      parseActions fuel (((actsBytes as).length : Nat) : Int) (actsBytes as ++ rest) acc =
        .ok (acc ++ as, 0, rest) := by
  induction as with
  | nil =>
      intro fuel acc rest _ _
      rcases fuel with _ | f <;> simp [actsBytes, parseActions]
  | cons a as ih =>
      intro fuel acc rest hf hwf
      have ha := hwf a (by simp)
      have has : ∀ x ∈ as, x.playerID < 256 ∧ x.data.length < 65536 :=
        fun x hx => hwf x (by simp [hx])
      rcases fuel with _ | f
      · simp at hf
      have hB : actsBytes (a :: as) ++ rest =
          a.playerID % 256 :: a.data.length % 256 :: a.data.length / 256 % 256 ::
            (a.data ++ (actsBytes as ++ rest)) := by
        simp [actsBytes]
      have hS : (((actsBytes (a :: as)).length : Nat) : Int) =
          3 + ((a.data.length : Nat) : Int) + (((actsBytes as).length : Nat) : Int) := by
        simp [actsBytes]
        ring
      have e1 : readUInt16 (a.data.length % 256 :: a.data.length / 256 % 256 ::
          (a.data ++ (actsBytes as ++ rest))) =
          .ok (a.data.length, a.data ++ (actsBytes as ++ rest)) :=
        readUInt16_le _ ha.2
      have e2 := readBlob_exact a.data (actsBytes as ++ rest)
      have hlt : ¬ ((3 + ((a.data.length : Nat) : Int) + (((actsBytes as).length : Nat) : Int))
          < ((a.data.length : Nat) : Int)) := by omega
      have hge : (3 : Int) ≤ 3 + ((a.data.length : Nat) : Int) + (((actsBytes as).length : Nat) : Int) := by
        omega
      rw [hB, hS, parseActions, if_pos hge]
      simp only [readUInt8_cons, e1, e2, hlt, if_false, Nat.mod_eq_of_lt ha.1]
      have hsz : 3 + ((a.data.length : Nat) : Int) + (((actsBytes as).length : Nat) : Int)
          - 3 - ((a.data.length : Nat) : Int) = (((actsBytes as).length : Nat) : Int) := by
        ring
      rw [hsz]
      have heta : (⟨a.playerID, a.data⟩ : PlayerAction) = a := rfl
      rw [heta, ih f (acc ++ [a]) rest (by simp at hf ⊢; omega) has]
      simp

theorem writeUInt16At_pos1 (x y z : Nat) (rest : List Nat) (v : Nat) :
    writeUInt16At (x :: y :: z :: rest) 1 v =
      x :: v % 256 :: v / 256 % 256 :: rest := rfl

theorem serializeTimeSlot_eq (enc : Encoding) (rec : TimeSlot) :
    serializeTimeSlot enc rec [] =
      (if rec.fragment = true ∨ (0 < enc.gameVersion ∧ enc.gameVersion ≤ 2)
        then RidTimeSlot2 else RidTimeSlot)
        :: (2 + actionsSize rec.actions) % 256
        :: (2 + actionsSize rec.actions) / 256 % 256
        :: rec.timeIncrementMS % 256
        :: rec.timeIncrementMS / 256 % 256
        :: actsBytes rec.actions := by
  have h1 : ([] : List Nat).length + 1 + 1 + 1 - 2 = 1 := rfl
  have h2 : (actsBytes rec.actions).length + 1 + 1 + 1 + 1 + 1 -
      (([] : List Nat).length + 1 + 1 + 1) = 2 + actionsSize rec.actions := by
    simp [actsBytes_length]
    omega
  simp only [serializeTimeSlot, serializeActions_eq]
  split
  · simp only [writeUInt8, writeUInt16, List.nil_append, List.cons_append,
      List.append_assoc, List.length_cons, List.length_append]
    rw [show (RidTimeSlot2 % 256) = RidTimeSlot2 from rfl]
    rw [h1, h2, writeUInt16At_pos1]
  · simp only [writeUInt8, writeUInt16, List.nil_append, List.cons_append,
      List.append_assoc, List.length_cons, List.length_append]
    rw [show (RidTimeSlot % 256) = RidTimeSlot from rfl]
    rw [h1, h2, writeUInt16At_pos1]

theorem timeSlot_roundtrip (enc : Encoding) (rec : TimeSlot)
    (ht : rec.timeIncrementMS < 65536)
    (ha : ∀ a ∈ rec.actions, a.playerID < 256 ∧ a.data.length < 65536)
    (hs : 2 + actionsSize rec.actions < 65536)
    (hf : (enc.gameVersion = 0 ∨ 2 < enc.gameVersion) ∨ rec.fragment = false) :
    deserializeTimeSlot enc (serializeTimeSlot enc rec []) = .ok (rec, []) := by
  rw [serializeTimeSlot_eq]
  have hab := actsBytes_length rec.actions
  have e1 : readUInt16 ((2 + actionsSize rec.actions) % 256 ::
      (2 + actionsSize rec.actions) / 256 % 256 ::
      (rec.timeIncrementMS % 256 :: rec.timeIncrementMS / 256 % 256 :: actsBytes rec.actions)) =
      .ok (2 + actionsSize rec.actions,
        rec.timeIncrementMS % 256 :: rec.timeIncrementMS / 256 % 256 :: actsBytes rec.actions) :=
    readUInt16_le _ hs
  have e2 : readUInt16 (rec.timeIncrementMS % 256 :: rec.timeIncrementMS / 256 % 256 ::
      actsBytes rec.actions) = .ok (rec.timeIncrementMS, actsBytes rec.actions) :=
    readUInt16_le _ ht
  have hcast : ((2 + actionsSize rec.actions : Nat) : Int) - 2 =
      (((actsBytes rec.actions).length : Nat) : Int) := by
    rw [hab]
    push_cast
    ring
  have e3 : parseActions (2 + actionsSize rec.actions)
      (((actsBytes rec.actions).length : Nat) : Int) (actsBytes rec.actions) [] =
      .ok (rec.actions, 0, []) := by
    have h := parseActions_ok rec.actions (2 + actionsSize rec.actions) [] []
      (by have := length_le_actionsSize rec.actions; omega) ha
    simpa using h
  have hguard : ¬ (2 + actionsSize rec.actions < 2 ∨
      (rec.timeIncrementMS % 256 :: rec.timeIncrementMS / 256 % 256 ::
        actsBytes rec.actions).length < 2 + actionsSize rec.actions) := by
    simp only [List.length_cons, hab]
    omega
  have hfrag : (decide ((if rec.fragment = true ∨ (0 < enc.gameVersion ∧ enc.gameVersion ≤ 2)
        then RidTimeSlot2 else RidTimeSlot) = RidTimeSlot2 ∧
        (enc.gameVersion = 0 ∨ 2 < enc.gameVersion)) : Bool) = rec.fragment := by
    rcases hf with hm | hff
    · have hne : ¬ (0 < enc.gameVersion ∧ enc.gameVersion ≤ 2) := by omega
      cases hfr : rec.fragment <;>
        simp [hfr, hne, RidTimeSlot, RidTimeSlot2, hm]
    · by_cases hm2 : enc.gameVersion = 0 ∨ 2 < enc.gameVersion
      · have hne : ¬ (0 < enc.gameVersion ∧ enc.gameVersion ≤ 2) := by omega
        simp [hff, hne, RidTimeSlot, RidTimeSlot2]
      · by_cases he : 0 < enc.gameVersion ∧ enc.gameVersion ≤ 2
        · simp [hff, he, hm2]
        · simp [hff, he, hm2, RidTimeSlot, RidTimeSlot2]
  unfold deserializeTimeSlot
  rw [if_neg (by simp)]
  simp only [readUInt8_cons, e1, e2, hguard, hcast, e3]
  simp only [or_self, if_false, iff_false, decide_not]
  rw [hfrag]
  simp

theorem gameStart_roundtrip (enc : Encoding) :
    deserializeGameStart enc (serializeGameStart enc []) = .ok [] := rfl

theorem countDownStart_roundtrip (enc : Encoding) :
    deserializeGameStart enc (serializeCountDownStart enc []) = .ok [] := rfl

theorem countDownEnd_roundtrip (enc : Encoding) :
    deserializeGameStart enc (serializeCountDownEnd enc []) = .ok [] := rfl

theorem endTimer_roundtrip (enc : Encoding) (rec : EndTimer)
    (hcd : rec.countDownSec < 4294967296) :
    deserializeEndTimer enc (serializeEndTimer enc rec []) = .ok (rec, []) := by
  obtain ⟨go, cd⟩ := rec
  simp only at hcd
  have e1 : readUInt32 (cd % 256 :: cd / 256 % 256 :: cd / 65536 % 256 ::
      cd / 16777216 % 256 :: []) = .ok (cd, []) := readUInt32_le _ hcd
  cases go <;>
  · unfold serializeEndTimer writeBool32 deserializeEndTimer readBool32
    simp only [Bool.false_eq_true, if_false, if_true,
      writeUInt8, writeUInt32, List.nil_append, List.cons_append, List.append_assoc]
    rw [if_neg (by simp)]
    simp [skip_cons, readUInt32_cons, e1]

theorem timeSlotAck_roundtrip (enc : Encoding) (rec : TimeSlotAck)
    (h : rec.checksum.length < 256) :
    deserializeTimeSlotAck enc (serializeTimeSlotAck enc rec []) = .ok (rec, []) := by
  obtain ⟨cs⟩ := rec
  simp only at h
  have e1 : readBlob cs.length cs = .ok (cs, []) := by
    have := readBlob_exact cs []
    simpa using this
  unfold serializeTimeSlotAck deserializeTimeSlotAck
  split <;>
  · simp only [writeBlob, writeUInt8, List.nil_append, List.cons_append, List.append_assoc]
    rw [if_neg (by simp)]
    simp [skip_cons, readUInt8_cons, Nat.mod_eq_of_lt h, e1]

theorem playerLeft_roundtrip (enc : Encoding) (rec : PlayerLeft)
    (hp : rec.playerID < 256) (hr : rec.reason < 4294967296)
    (hc : rec.counter < 4294967296) :
    deserializePlayerLeft enc (serializePlayerLeft enc rec []) = .ok (rec, []) := by
  obtain ⟨l, pid, rs, cnt⟩ := rec
  simp only at hp hr hc
  have e1 : readUInt32 (rs % 256 :: rs / 256 % 256 :: rs / 65536 % 256 ::
      rs / 16777216 % 256 :: (cnt % 256 :: cnt / 256 % 256 :: cnt / 65536 % 256 ::
      cnt / 16777216 % 256 :: [])) =
      .ok (rs, cnt % 256 :: cnt / 256 % 256 :: cnt / 65536 % 256 ::
        cnt / 16777216 % 256 :: []) := readUInt32_le _ hr
  have e2 : readUInt32 (cnt % 256 :: cnt / 256 % 256 :: cnt / 65536 % 256 ::
      cnt / 16777216 % 256 :: []) = .ok (cnt, []) := readUInt32_le _ hc
  cases l <;>
  · unfold serializePlayerLeft deserializePlayerLeft
    simp only [Bool.false_eq_true, if_false, if_true,
      writeUInt8, writeUInt32, List.nil_append, List.cons_append, List.append_assoc]
    rw [if_neg (by simp)]
    simp [skip_cons, readUInt8_cons, readUInt32_cons, Nat.mod_eq_of_lt hp, e1, e2]

theorem playerInfo_roundtrip (enc : Encoding) (rec : PlayerInfo)
    (hid : rec.id < 256) (hn : 0 ∉ rec.name)
    (hjc : rec.joinCounter < 4294967296) (hrace : rec.race < 4294967296) :
    deserializePlayerInfo enc (serializePlayerInfo enc rec []) = .ok (rec, []) := by
  obtain ⟨id, name, race, jc⟩ := rec
  simp only at hid hn hjc hrace
  unfold serializePlayerInfo serializePlayerInfoContent deserializePlayerInfo
    deserializePlayerInfoContent
  by_cases h0 : jc = 0 ∧ race = 0
  · rw [if_pos h0]
    simp only [writeUInt8, writeUInt32, writeString, writeBlob,
      List.nil_append, List.cons_append, List.append_assoc]
    rw [if_neg (by simp)]
    simp only [skip_cons]
    rw [if_neg (by simp)]
    simp only [readUInt8_cons, Nat.mod_eq_of_lt hid,
      readCString_terminated _ hn]
    have e3 : skip 4 [0, 0, 0, 0] = (.ok [] : Except PErr (List Nat)) := rfl
    simp [skip_cons, e3, h0.1, h0.2]
  · rw [if_neg h0]
    simp only [writeUInt8, writeUInt32, writeString, writeBlob,
      List.nil_append, List.cons_append, List.append_assoc]
    rw [if_neg (by simp)]
    simp only [skip_cons]
    rw [if_neg (by simp)]
    simp only [readUInt8_cons, Nat.mod_eq_of_lt hid,
      readCString_terminated _ hn]
    have e1 : readUInt32 (jc % 256 :: jc / 256 % 256 :: jc / 65536 % 256 ::
        jc / 16777216 % 256 :: (race % 256 :: race / 256 % 256 :: race / 65536 % 256 ::
        race / 16777216 % 256 :: (0 % 256 :: 0 / 256 % 256 :: 0 / 65536 % 256 ::
        0 / 16777216 % 256 :: []))) =
        .ok (jc, race % 256 :: race / 256 % 256 :: race / 65536 % 256 ::
          race / 16777216 % 256 :: (0 % 256 :: 0 / 256 % 256 :: 0 / 65536 % 256 ::
          0 / 16777216 % 256 :: [])) := readUInt32_le _ hjc
    have e2 : readUInt32 (race % 256 :: race / 256 % 256 :: race / 65536 % 256 ::
        race / 16777216 % 256 :: (0 % 256 :: 0 / 256 % 256 :: 0 / 65536 % 256 ::
        0 / 16777216 % 256 :: [])) =
        .ok (race, 0 % 256 :: 0 / 256 % 256 :: 0 / 65536 % 256 ::
          0 / 16777216 % 256 :: []) := readUInt32_le _ hrace
    have e3 : skip 4 [0 % 256, 0 / 256 % 256, 0 / 65536 % 256, 0 / 16777216 % 256] =
        (.ok [] : Except PErr (List Nat)) := rfl
    simp [e1, e2, e3, skip_cons]

theorem parseExtraStrings_zero (fuel : Nat) (b acc : List Nat) :
    parseExtraStrings fuel 0 b acc = .ok (acc, b) := by
  cases fuel <;> simp [parseExtraStrings]

theorem chatMessage_roundtrip (enc : Encoding) (rec : ChatMessage)
    (hsender : rec.senderID < 256) (hrcp : rec.recipientIDs = [])
    (hcase :
      (rec.msgType = MsgChatExtra ∧ rec.scope < 4294967296 ∧ rec.newVal = 0 ∧
        0 ∉ rec.content ∧ 6 + rec.content.length < 65536) ∨
      (rec.msgType = MsgChat ∧ rec.scope = ScopeAll ∧ rec.newVal = 0 ∧
        0 ∉ rec.content ∧ 2 + rec.content.length < 65536) ∨
      (rec.msgType < 256 ∧ rec.msgType ≠ MsgChat ∧ rec.msgType ≠ MsgChatExtra ∧
        rec.scope = ScopeAll ∧ rec.newVal < 256 ∧ rec.content = [])) :
    deserializeChatMessage enc (serializeChatMessage enc rec []) = .ok (rec, []) := by
  obtain ⟨sender, rcp, ty, scope, nv, content⟩ := rec
  simp only at hsender hrcp hcase
  subst hrcp
  unfold serializeChatMessage deserializeChatMessage
  dsimp only
  rcases hcase with ⟨hty, hscope, hnv, hn, hlen⟩ | ⟨hty, hscope, hnv, hn, hlen⟩ |
    ⟨hty, hty1, hty2, hscope, hnv, hc⟩
  · subst hty hnv
    rw [if_pos rfl, if_pos rfl]
    simp only [writeUInt8, writeUInt16, writeUInt32, writeString, writeBlob,
      List.nil_append, List.cons_append, List.append_assoc]
    rw [if_neg (by simp)]
    simp only [skip_cons, readUInt8_cons, Nat.mod_eq_of_lt hsender]
    rw [readUInt16_le _ hlen]
    have hg1 : ¬ (6 + content.length < 2 ∨
        (MsgChatExtra % 256 :: scope % 256 :: scope / 256 % 256 :: scope / 65536 % 256 ::
          scope / 16777216 % 256 :: (content ++ [0 % 256])).length < 6 + content.length) := by
      simp only [List.length_cons, List.length_append, List.length_singleton]
      omega
    have hg2 : ¬ (6 + content.length < 6) := by omega
    have e1 : readUInt32 (scope % 256 :: scope / 256 % 256 :: scope / 65536 % 256 ::
        scope / 16777216 % 256 :: (content ++ [0 % 256])) =
        .ok (scope, content ++ [0 % 256]) := readUInt32_le _ hscope
    have e2 : readCString (content ++ [0 % 256]) = .ok (content, []) := by
      have h := readCString_terminated ([] : List Nat) hn
      simpa using h
    have hz : ((6 + content.length : Nat) : Int) - 4 - 2 - (content.length : Int) = 0 := by
      push_cast
      ring
    simp only [hg1, hg2, if_false, readUInt8_cons, e1, e2, hz, parseExtraStrings_zero]
    simp [MsgChatExtra]
  · subst hty hnv hscope
    have hnem : MsgChat ≠ MsgChatExtra := by decide
    simp only [if_neg hnem, eq_self_iff_true, if_true]
    simp only [writeUInt8, writeUInt16, writeString, writeBlob,
      List.nil_append, List.cons_append, List.append_assoc]
    rw [if_neg (by simp)]
    simp only [skip_cons, readUInt8_cons, Nat.mod_eq_of_lt hsender]
    rw [readUInt16_le _ hlen]
    have hg1 : ¬ (2 + content.length < 2 ∨
        (MsgChat % 256 :: (content ++ [0 % 256])).length < 2 + content.length) := by
      simp only [List.length_cons, List.length_append, List.length_singleton]
      omega
    have hne : (MsgChat % 256 : Nat) ≠ MsgChatExtra := by decide
    have e2 : readCString (content ++ [0 % 256]) = .ok (content, []) := by
      have h := readCString_terminated ([] : List Nat) hn
      simpa using h
    have hz : ((2 + content.length : Nat) : Int) - 2 - (content.length : Int) = 0 := by
      push_cast
      ring
    simp only [hg1, if_false, readUInt8_cons, hne, e2, hz, parseExtraStrings_zero]
    simp [MsgChat, ScopeAll]
  · subst hscope hc
    simp only [if_neg hty2, if_neg hty1]
    simp only [writeUInt8, writeUInt16, writeString, writeBlob,
      List.nil_append, List.cons_append, List.append_assoc]
    rw [if_neg (by simp)]
    simp only [skip_cons, readUInt8_cons, Nat.mod_eq_of_lt hsender,
      Nat.mod_eq_of_lt hty]
    rw [show ((2 : Nat) % 256) = 2 from rfl, show ((2 : Nat) / 256 % 256) = 0 from rfl]
    simp only [readUInt16_cons, Nat.mul_zero, Nat.add_zero]
    have hg1 : ¬ ((2 : Nat) < 2 ∨ ([ty, nv % 256] : List Nat).length < 2) := by
      simp
    have hg3 : ¬ ((2 : Nat) ≠ 2) := by omega
    simp only [hg1, hg3, if_false, readUInt8_cons, hty1, hty2]
    simp [Nat.mod_eq_of_lt hnv, ScopeAll, hty1, hty2]

/-- C1 (amended): for every record variant of the W3G catalog whose codec
is fully contained in the source, and every encoding, serializing a
well-formed value into a fresh empty buffer and deserializing the result
yields the original value with the buffer fully consumed. -/
theorem C1_roundtrip_wellFormed (enc : Encoding) (r : Rec) (h : wfRec enc r) :
    deserializeSameTy enc r (serializeRec enc r []) = .ok (r, []) := by
  cases r with
  | playerInfo p =>
      obtain ⟨h1, h2, h3, h4⟩ := h
      simp [serializeRec, deserializeSameTy, playerInfo_roundtrip enc p h1 h2 h3 h4]
  | playerLeft p =>
      obtain ⟨h1, h2, h3⟩ := h
      simp [serializeRec, deserializeSameTy, playerLeft_roundtrip enc p h1 h2 h3]
  | gameStart =>
      simp [serializeRec, deserializeSameTy, gameStart_roundtrip enc]
  | countDownStart =>
      simp [serializeRec, deserializeSameTy, countDownStart_roundtrip enc]
  | countDownEnd =>
      simp [serializeRec, deserializeSameTy, countDownEnd_roundtrip enc]
  | timeSlot p =>
      obtain ⟨h1, h2, h3, h4⟩ := h
      simp [serializeRec, deserializeSameTy, timeSlot_roundtrip enc p h1 h2 h3 h4]
  | chatMessage p =>
      obtain ⟨h1, h2, h3⟩ := h
      simp [serializeRec, deserializeSameTy, chatMessage_roundtrip enc p h1 h2 h3]
  | timeSlotAck p =>
      simp [serializeRec, deserializeSameTy, timeSlotAck_roundtrip enc p h]
  | endTimer p =>
      simp [serializeRec, deserializeSameTy, endTimer_roundtrip enc p h]

/-- Witness for C1 (amended) at a concrete TimeSlot with one action. -/
theorem C1_roundtrip_wellFormed_witness :
    wfRec ⟨0⟩ (.timeSlot ⟨false, 100, [⟨1, [7, 8]⟩]⟩) ∧
    deserializeSameTy ⟨0⟩ (.timeSlot ⟨false, 100, [⟨1, [7, 8]⟩]⟩)
      (serializeRec ⟨0⟩ (.timeSlot ⟨false, 100, [⟨1, [7, 8]⟩]⟩) []) =
      .ok (.timeSlot ⟨false, 100, [⟨1, [7, 8]⟩]⟩, []) :=
  ⟨by unfold wfRec; refine ⟨by norm_num, by decide, by norm_num [actionsSize], by simp⟩,
   C1_roundtrip_wellFormed ⟨0⟩ (.timeSlot ⟨false, 100, [⟨1, [7, 8]⟩]⟩)
     (by unfold wfRec; refine ⟨by norm_num, by decide, by norm_num [actionsSize], by simp⟩)⟩

/-- C1 counterexample: the round-trip law fails as universally stated.
A ChatMessage whose content holds an interior zero byte comes back with
the zero dropped, and a TimeSlot with the fragment flag under game
version 2 comes back with the flag cleared. -/
theorem C1_roundtrip_counterexample :
    deserializeSameTy ⟨0⟩ (.chatMessage ⟨0, [], MsgChat, 0, 0, [97, 0, 98]⟩)
      (serializeRec ⟨0⟩ (.chatMessage ⟨0, [], MsgChat, 0, 0, [97, 0, 98]⟩) []) ≠
      .ok (.chatMessage ⟨0, [], MsgChat, 0, 0, [97, 0, 98]⟩, []) ∧
    deserializeSameTy ⟨2⟩ (.timeSlot ⟨true, 100, []⟩)
      (serializeRec ⟨2⟩ (.timeSlot ⟨true, 100, []⟩) []) ≠
      .ok (.timeSlot ⟨true, 100, []⟩, []) := by
  constructor <;> decide

/-- C2: deserializing an empty buffer as any record type of the W3G
factory catalog returns the short-buffer (invalid-packet-size) error, an
error value rather than a panic; the BNCS framed entry behaves the same. -/
theorem C2_empty_buffer (enc : Encoding) (ty : RecTy) :
    deserializeErr ty enc [] = some .shortBuffer ∧
    deserializeBNCSHeader [] = .error .shortBuffer := by
  refine ⟨?_, rfl⟩
  cases ty <;> rfl

/-- C3: the factory maps record tag 0x20 to ChatMessage exactly when the
game version is 0 or greater than 2, and to TimeSlotAck otherwise. -/
theorem C3_factory_tag_32 (gv : Nat) :
    DefaultFactory ⟨gv⟩ 0x20 =
      some (if gv = 0 ∨ 2 < gv then RecTy.chatMessage else RecTy.timeSlotAck) := by
  unfold DefaultFactory
  norm_num [RidGameInfo, RidPlayerInfo, RidPlayerLeft, RidSlotInfo, RidCountDownStart,
    RidCountDownEnd, RidGameStart, RidTimeSlot, RidTimeSlot2, RidChatMessage]

/-- C5 counterexample: with the code the length field of the concrete
chat-extra message is 0x0008, not the claimed 0x0009. -/
theorem C5_chat_embed_counterexample :
    serializeChatMessage ⟨0⟩ ⟨2, [], MsgChatExtra, ScopeAll, 0, [0x68, 0x69]⟩ [] ≠
      [0x20, 0x02, 0x09, 0x00, 0x20, 0x00, 0x00, 0x00, 0x00, 0x68, 0x69, 0x00] := by
  decide

/-- C5 (amended): the ChatMessage with sender 2, type chat-extra, scope
all, content "hi" serializes to tag 0x20, sender 0x02, length 0x0008
little-endian, type 0x20, scope zero dword, then the payload 68 69 00. -/
theorem C5_chat_embed :
    serializeChatMessage ⟨0⟩ ⟨2, [], MsgChatExtra, ScopeAll, 0, [0x68, 0x69]⟩ [] =
      [0x20, 0x02, 0x08, 0x00, 0x20, 0x00, 0x00, 0x00, 0x00, 0x68, 0x69, 0x00] := by
  decide

/-- C6: on the 8-byte record with declared length 5 whose single action
declares 3 data bytes when 0 remain inside the declared region, the
deserializer reads past the end of the buffer and panics instead of
returning the bad-format error; the neighbouring malformed shapes (a
leftover of 1-2 bytes, and a data length exceeding even the pre-header
size) do return bad-format. -/
theorem C6_timeslot_overrun :
    deserializeTimeSlot ⟨0⟩ [0x1E, 0x05, 0x00, 0x00, 0x00, 0x01, 0x03, 0x00] =
      .error .panicked ∧
    deserializeTimeSlot ⟨0⟩ [0x1E, 0x04, 0x00, 0x00, 0x00, 0x09, 0x09] =
      .error .badFormat ∧
    deserializeTimeSlot ⟨0⟩ [0x1E, 0x05, 0x00, 0x00, 0x00, 0x01, 0xC8, 0x00] =
      .error .badFormat := by
  refine ⟨by decide, by decide, by decide⟩

theorem length_le_joinNull (ss : List (List Nat)) :
    ss.length ≤ (joinNull ss).length := by
  induction ss with
  | nil => simp [joinNull]
  | cons s ss ih => simp [joinNull]; omega

theorem parseExtraStrings_ok (ss : List (List Nat)) :
    ∀ (fuel : Nat) (acc rest : List Nat),
      ss.length ≤ fuel →
      (∀ s ∈ ss, 0 ∉ s ∧ s.all isPrintByte = true) →
      parseExtraStrings fuel (((joinNull ss).length : Nat) : Int) (joinNull ss ++ rest) acc =
        .ok (acc ++ catStrs ss, rest) := by
  induction ss with
  | nil =>
      intro fuel acc rest _ _
      simp [joinNull, catStrs, parseExtraStrings_zero]
  | cons s ss ih =>
      intro fuel acc rest hf hwf
      have hs := hwf s (by simp)
      have hss : ∀ t ∈ ss, 0 ∉ t ∧ t.all isPrintByte = true :=
        fun t ht => hwf t (by simp [ht])
      rcases fuel with _ | f
      · simp at hf
      have hB : joinNull (s :: ss) ++ rest = s ++ 0 :: (joinNull ss ++ rest) := by
        simp [joinNull]
      have hS : (((joinNull (s :: ss)).length : Nat) : Int) =
          (s.length : Int) + 1 + (((joinNull ss).length : Nat) : Int) := by
        simp [joinNull]
        ring
      have hpos : (0 : Int) < (s.length : Int) + 1 + (((joinNull ss).length : Nat) : Int) := by
        omega
      have hanyf : s.any (fun c => !isPrintByte c) = false := by
        rw [List.any_eq_false]
        intro c hc
        have := List.all_eq_true.mp hs.2 c hc
        simp [this]
      rw [hB, hS, parseExtraStrings, if_pos hpos]
      simp only [readCString_terminated _ hs.1, hanyf, Bool.false_eq_true, if_false]
      have hz : (s.length : Int) + 1 + (((joinNull ss).length : Nat) : Int) -
          ((s.length : Nat) + 1) = (((joinNull ss).length : Nat) : Int) := by
        ring
      rw [hz, ih f (acc ++ s) rest (by simp at hf ⊢; omega) hss]
      simp [catStrs]

theorem parseExtraStrings_bad (ss : List (List Nat)) :
    ∀ (fuel : Nat) (acc : List Nat) (s b2 : List Nat),
      ss.length < fuel →
      (∀ t ∈ ss, 0 ∉ t ∧ t.all isPrintByte = true) →
      0 ∉ s →
      s.any (fun c => !isPrintByte c) = true →
      parseExtraStrings fuel (((joinNull ss).length + s.length + 1 : Nat) : Int)
        (joinNull ss ++ (s ++ 0 :: b2)) acc = .error .badFormat := by
  induction ss with
  | nil =>
      intro fuel acc s b2 hf _ hn hany
      rcases fuel with _ | f
      · simp at hf
      have hpos : (0 : Int) < (((joinNull ([] : List (List Nat))).length + s.length + 1 : Nat) : Int) := by
        push_cast
        omega
      rw [parseExtraStrings, if_pos hpos]
      have hB : joinNull ([] : List (List Nat)) ++ (s ++ 0 :: b2) = s ++ 0 :: b2 := by
        simp [joinNull]
      rw [hB]
      simp only [readCString_terminated _ hn, hany, if_true]
  | cons t ss ih =>
      intro fuel acc s b2 hf hwf hn hany
      have ht := hwf t (by simp)
      have hss : ∀ u ∈ ss, 0 ∉ u ∧ u.all isPrintByte = true :=
        fun u hu => hwf u (by simp [hu])
      rcases fuel with _ | f
      · simp at hf
      have hB : joinNull (t :: ss) ++ (s ++ 0 :: b2) =
          t ++ 0 :: (joinNull ss ++ (s ++ 0 :: b2)) := by
        simp [joinNull]
      have hS : (((joinNull (t :: ss)).length + s.length + 1 : Nat) : Int) =
          (t.length : Int) + 1 + (((joinNull ss).length + s.length + 1 : Nat) : Int) := by
        simp [joinNull]
        ring
      have hpos : (0 : Int) <
          (t.length : Int) + 1 + (((joinNull ss).length + s.length + 1 : Nat) : Int) := by
        omega
      have hanyf : t.any (fun c => !isPrintByte c) = false := by
        rw [List.any_eq_false]
        intro c hc
        have := List.all_eq_true.mp ht.2 c hc
        simp [this]
      rw [hB, hS, parseExtraStrings, if_pos hpos]
      simp only [readCString_terminated _ ht.1, hanyf, Bool.false_eq_true, if_false]
      have hz : (t.length : Int) + 1 + (((joinNull ss).length + s.length + 1 : Nat) : Int) -
          ((t.length : Nat) + 1) = (((joinNull ss).length + s.length + 1 : Nat) : Int) := by
        push_cast
        ring
      rw [hz, ih f (acc ++ t) s b2 (by simp at hf ⊢; omega) hss hn hany]

/-- C7: deserializing a chat or chat-extra ChatMessage whose declared
length extends past the first null-terminated content string parses the
remaining bytes as further null-terminated strings concatenated onto the
content, and fails with the bad-format error as soon as one continuation
string holds a non-printable character. -/
theorem C7_chat_continuation :
    (∀ (enc : Encoding) (sender : Nat) (c0 : List Nat) (ss : List (List Nat))
        (rest : List Nat),
      0 ∉ c0 →
      (∀ s ∈ ss, 0 ∉ s ∧ s.all isPrintByte = true) →
      2 + c0.length + (joinNull ss).length < 65536 →
      deserializeChatMessage enc
        (RidChatMessage :: sender :: (2 + c0.length + (joinNull ss).length) % 256 ::
          (2 + c0.length + (joinNull ss).length) / 256 % 256 :: MsgChat ::
          (c0 ++ 0 :: (joinNull ss ++ rest))) =
        .ok (⟨sender, [], MsgChat, ScopeAll, 0, c0 ++ catStrs ss⟩, rest)) ∧
    (∀ (enc : Encoding) (sender : Nat) (c0 : List Nat) (ss1 : List (List Nat))
        (s b2 : List Nat),
      0 ∉ c0 →
      (∀ t ∈ ss1, 0 ∉ t ∧ t.all isPrintByte = true) →
      0 ∉ s →
      s.any (fun c => !isPrintByte c) = true →
      2 + c0.length + ((joinNull ss1).length + s.length + 1) < 65536 →
      deserializeChatMessage enc
        (RidChatMessage :: sender ::
          (2 + c0.length + ((joinNull ss1).length + s.length + 1)) % 256 ::
          (2 + c0.length + ((joinNull ss1).length + s.length + 1)) / 256 % 256 :: MsgChat ::
          (c0 ++ 0 :: (joinNull ss1 ++ (s ++ 0 :: b2)))) =
        .error .badFormat) ∧
    (∀ (enc : Encoding) (sender scope : Nat) (c0 : List Nat) (ss : List (List Nat))
        (rest : List Nat),
      scope < 4294967296 →
      0 ∉ c0 →
      (∀ s ∈ ss, 0 ∉ s ∧ s.all isPrintByte = true) →
      6 + c0.length + (joinNull ss).length < 65536 →
      deserializeChatMessage enc
        (RidChatMessage :: sender :: (6 + c0.length + (joinNull ss).length) % 256 ::
          (6 + c0.length + (joinNull ss).length) / 256 % 256 :: MsgChatExtra ::
          scope % 256 :: scope / 256 % 256 :: scope / 65536 % 256 :: scope / 16777216 % 256 ::
          (c0 ++ 0 :: (joinNull ss ++ rest))) =
        .ok (⟨sender, [], MsgChatExtra, scope, 0, c0 ++ catStrs ss⟩, rest)) ∧
    (∀ (enc : Encoding) (sender scope : Nat) (c0 : List Nat) (ss1 : List (List Nat))
        (s b2 : List Nat),
      scope < 4294967296 →
      0 ∉ c0 →
      (∀ t ∈ ss1, 0 ∉ t ∧ t.all isPrintByte = true) →
      0 ∉ s →
      s.any (fun c => !isPrintByte c) = true →
      6 + c0.length + ((joinNull ss1).length + s.length + 1) < 65536 →
      deserializeChatMessage enc
        (RidChatMessage :: sender ::
          (6 + c0.length + ((joinNull ss1).length + s.length + 1)) % 256 ::
          (6 + c0.length + ((joinNull ss1).length + s.length + 1)) / 256 % 256 :: MsgChatExtra ::
          scope % 256 :: scope / 256 % 256 :: scope / 65536 % 256 :: scope / 16777216 % 256 ::
          (c0 ++ 0 :: (joinNull ss1 ++ (s ++ 0 :: b2)))) =
        .error .badFormat) := by
  have hnem : MsgChat ≠ MsgChatExtra := by decide
  refine ⟨?_, ?_, ?_, ?_⟩
  · intro enc sender c0 ss rest hc0 hss hlen
    unfold deserializeChatMessage
    rw [if_neg (by simp)]
    simp only [skip_cons, readUInt8_cons]
    rw [readUInt16_le _ hlen]
    have hg1 : ¬ (2 + c0.length + (joinNull ss).length < 2 ∨
        (MsgChat :: (c0 ++ 0 :: (joinNull ss ++ rest))).length <
          2 + c0.length + (joinNull ss).length) := by
      simp only [List.length_cons, List.length_append]
      omega
    have e2 : readCString (c0 ++ 0 :: (joinNull ss ++ rest)) =
        .ok (c0, joinNull ss ++ rest) := readCString_terminated _ hc0
    have hz : ((2 + c0.length + (joinNull ss).length : Nat) : Int) - 2 - (c0.length : Int) =
        (((joinNull ss).length : Nat) : Int) := by
      push_cast
      ring
    have e3 := parseExtraStrings_ok ss (2 + c0.length + (joinNull ss).length) c0 rest
      (by have := length_le_joinNull ss; omega) hss
    simp only [hg1, if_false, readUInt8_cons, if_neg hnem, eq_self_iff_true, if_true,
      e2, hz, e3]
  · intro enc sender c0 ss1 s b2 hc0 hss1 hs hany hlen
    unfold deserializeChatMessage
    rw [if_neg (by simp)]
    simp only [skip_cons, readUInt8_cons]
    rw [readUInt16_le _ hlen]
    have hg1 : ¬ (2 + c0.length + ((joinNull ss1).length + s.length + 1) < 2 ∨
        (MsgChat :: (c0 ++ 0 :: (joinNull ss1 ++ (s ++ 0 :: b2)))).length <
          2 + c0.length + ((joinNull ss1).length + s.length + 1)) := by
      simp only [List.length_cons, List.length_append]
      omega
    have e2 : readCString (c0 ++ 0 :: (joinNull ss1 ++ (s ++ 0 :: b2))) =
        .ok (c0, joinNull ss1 ++ (s ++ 0 :: b2)) := readCString_terminated _ hc0
    have hz : ((2 + c0.length + ((joinNull ss1).length + s.length + 1) : Nat) : Int) - 2 -
        (c0.length : Int) = (((joinNull ss1).length + s.length + 1 : Nat) : Int) := by
      push_cast
      ring
    have e3 := parseExtraStrings_bad ss1 (2 + c0.length + ((joinNull ss1).length + s.length + 1))
      c0 s b2 (by have := length_le_joinNull ss1; omega) hss1 hs hany
    simp only [hg1, if_false, readUInt8_cons, if_neg hnem, eq_self_iff_true, if_true,
      e2, hz, e3]
  · intro enc sender scope c0 ss rest hsc hc0 hss hlen
    unfold deserializeChatMessage
    rw [if_neg (by simp)]
    simp only [skip_cons, readUInt8_cons]
    rw [readUInt16_le _ hlen]
    have hg1 : ¬ (6 + c0.length + (joinNull ss).length < 2 ∨
        (MsgChatExtra :: scope % 256 :: scope / 256 % 256 :: scope / 65536 % 256 ::
          scope / 16777216 % 256 :: (c0 ++ 0 :: (joinNull ss ++ rest))).length <
          6 + c0.length + (joinNull ss).length) := by
      simp only [List.length_cons, List.length_append]
      omega
    have hg2 : ¬ (6 + c0.length + (joinNull ss).length < 6) := by omega
    have e1 : readUInt32 (scope % 256 :: scope / 256 % 256 :: scope / 65536 % 256 ::
        scope / 16777216 % 256 :: (c0 ++ 0 :: (joinNull ss ++ rest))) =
        .ok (scope, c0 ++ 0 :: (joinNull ss ++ rest)) := readUInt32_le _ hsc
    have e2 : readCString (c0 ++ 0 :: (joinNull ss ++ rest)) =
        .ok (c0, joinNull ss ++ rest) := readCString_terminated _ hc0
    have hz : ((6 + c0.length + (joinNull ss).length : Nat) : Int) - 4 - 2 -
        (c0.length : Int) = (((joinNull ss).length : Nat) : Int) := by
      push_cast
      ring
    have e3 := parseExtraStrings_ok ss (6 + c0.length + (joinNull ss).length) c0 rest
      (by have := length_le_joinNull ss; omega) hss
    simp only [hg1, hg2, if_false, readUInt8_cons, eq_self_iff_true, if_true, e1, e2, hz, e3]
  · intro enc sender scope c0 ss1 s b2 hsc hc0 hss1 hs hany hlen
    unfold deserializeChatMessage
    rw [if_neg (by simp)]
    simp only [skip_cons, readUInt8_cons]
    rw [readUInt16_le _ hlen]
    have hg1 : ¬ (6 + c0.length + ((joinNull ss1).length + s.length + 1) < 2 ∨
        (MsgChatExtra :: scope % 256 :: scope / 256 % 256 :: scope / 65536 % 256 ::
          scope / 16777216 % 256 :: (c0 ++ 0 :: (joinNull ss1 ++ (s ++ 0 :: b2)))).length <
          6 + c0.length + ((joinNull ss1).length + s.length + 1)) := by
      simp only [List.length_cons, List.length_append]
      omega
    have hg2 : ¬ (6 + c0.length + ((joinNull ss1).length + s.length + 1) < 6) := by omega
    have e1 : readUInt32 (scope % 256 :: scope / 256 % 256 :: scope / 65536 % 256 ::
        scope / 16777216 % 256 :: (c0 ++ 0 :: (joinNull ss1 ++ (s ++ 0 :: b2)))) =
        .ok (scope, c0 ++ 0 :: (joinNull ss1 ++ (s ++ 0 :: b2))) := readUInt32_le _ hsc
    have e2 : readCString (c0 ++ 0 :: (joinNull ss1 ++ (s ++ 0 :: b2))) =
        .ok (c0, joinNull ss1 ++ (s ++ 0 :: b2)) := readCString_terminated _ hc0
    have hz : ((6 + c0.length + ((joinNull ss1).length + s.length + 1) : Nat) : Int) - 4 - 2 -
        (c0.length : Int) = (((joinNull ss1).length + s.length + 1 : Nat) : Int) := by
      push_cast
      ring
    have e3 := parseExtraStrings_bad ss1
      (6 + c0.length + ((joinNull ss1).length + s.length + 1)) c0 s b2
      (by have := length_le_joinNull ss1; omega) hss1 hs hany
    simp only [hg1, hg2, if_false, readUInt8_cons, eq_self_iff_true, if_true, e1, e2, hz, e3]

/-- Witness for C7: a chat message with one printable continuation string
concatenates it; one with a non-printable continuation fails. -/
theorem C7_chat_continuation_witness :
    deserializeChatMessage ⟨0⟩
      (RidChatMessage :: 1 :: (2 + ([104] : List Nat).length + (joinNull [[105]]).length) % 256 ::
        (2 + ([104] : List Nat).length + (joinNull [[105]]).length) / 256 % 256 :: MsgChat ::
        ([104] ++ 0 :: (joinNull [[105]] ++ []))) =
      .ok (⟨1, [], MsgChat, ScopeAll, 0, [104] ++ catStrs [[105]]⟩, []) ∧
    deserializeChatMessage ⟨0⟩
      (RidChatMessage :: 1 ::
        (2 + ([104] : List Nat).length + ((joinNull []).length + ([5] : List Nat).length + 1)) % 256 ::
        (2 + ([104] : List Nat).length + ((joinNull []).length + ([5] : List Nat).length + 1)) / 256 % 256 ::
        MsgChat :: ([104] ++ 0 :: (joinNull [] ++ ([5] ++ 0 :: [])))) =
      .error .badFormat :=
  ⟨C7_chat_continuation.1 ⟨0⟩ 1 [104] [[105]] [] (by decide) (by decide) (by decide),
   C7_chat_continuation.2.1 ⟨0⟩ 1 [104] [] [5] [] (by decide) (by decide) (by decide)
     (by decide) (by decide)⟩

/-- C4: the TimeSlot tag written is 0x1F exactly when the fragment flag
is set or the game version is 1-2, else 0x1E; concretely 0x1F at game
version 2 without fragment and 0x1E at game version 30; both tags map to
TimeSlot in the factory; and a successful deserialize records in the
Fragment boolean whether the tag was 0x1F under game version 0 or above
2. -/
theorem C4_timeslot_version_dispatch :
    (∀ (enc : Encoding) (rec : TimeSlot),
      (serializeTimeSlot enc rec []).head? =
        some (if rec.fragment = true ∨ (1 ≤ enc.gameVersion ∧ enc.gameVersion ≤ 2)
          then RidTimeSlot2 else RidTimeSlot)) ∧
    (∀ rec : TimeSlot, rec.fragment = false →
      (serializeTimeSlot ⟨2⟩ rec []).head? = some 0x1F) ∧
    (∀ rec : TimeSlot, rec.fragment = false →
      (serializeTimeSlot ⟨30⟩ rec []).head? = some 0x1E) ∧
    (∀ enc : Encoding, DefaultFactory enc RidTimeSlot = some RecTy.timeSlot ∧
      DefaultFactory enc RidTimeSlot2 = some RecTy.timeSlot) ∧
    (∀ (enc : Encoding) (tag : Nat) (b : List Nat) (rec : TimeSlot) (rest : List Nat),
      deserializeTimeSlot enc (tag :: b) = .ok (rec, rest) →
      rec.fragment = decide (tag = RidTimeSlot2 ∧
        (enc.gameVersion = 0 ∨ 2 < enc.gameVersion))) := by
  refine ⟨?_, ?_, ?_, ?_, ?_⟩
  · intro enc rec
    rw [serializeTimeSlot_eq]
    rfl
  · intro rec hf
    rw [serializeTimeSlot_eq]
    simp [hf, RidTimeSlot2]
  · intro rec hf
    rw [serializeTimeSlot_eq]
    simp [hf, RidTimeSlot, RidTimeSlot2]
  · intro enc
    constructor <;>
    · unfold DefaultFactory
      norm_num [RidGameInfo, RidPlayerInfo, RidPlayerLeft, RidSlotInfo, RidCountDownStart,
        RidCountDownEnd, RidGameStart, RidTimeSlot, RidTimeSlot2]
  · intro enc tag b rec rest h
    unfold deserializeTimeSlot at h
    split at h
    · exact absurd h (by simp)
    simp only [readUInt8_cons] at h
    rcases hr : readUInt16 b with e | ⟨sizeN, b1⟩
    · rw [hr] at h
      exact absurd h (by simp)
    simp only [hr] at h
    split at h
    · exact absurd h (by simp)
    rcases hr2 : readUInt16 b1 with e | ⟨time, b2⟩
    · rw [hr2] at h
      exact absurd h (by simp)
    simp only [hr2] at h
    rcases hr3 : parseActions sizeN ((sizeN : Int) - 2) b2 [] with e | ⟨acts, rsize, b3⟩
    · rw [hr3] at h
      exact absurd h (by simp)
    simp only [hr3] at h
    split at h
    · exact absurd h (by simp)
    injection h with hpair
    injection hpair with hrec hrest
    rw [← hrec]

/-- Witness for C4 at concrete records and a concrete parse. -/
theorem C4_timeslot_version_dispatch_witness :
    ((⟨true, 100, []⟩ : TimeSlot).fragment = decide ((0x1F : Nat) = RidTimeSlot2 ∧
      ((⟨0⟩ : Encoding).gameVersion = 0 ∨ 2 < (⟨0⟩ : Encoding).gameVersion))) ∧
    (serializeTimeSlot ⟨2⟩ ⟨false, 50, []⟩ []).head? = some 0x1F ∧
    (serializeTimeSlot ⟨30⟩ ⟨false, 50, []⟩ []).head? = some 0x1E :=
  ⟨C4_timeslot_version_dispatch.2.2.2.2 ⟨0⟩ 0x1F [2, 0, 100, 0] ⟨true, 100, []⟩ []
     (by decide),
   C4_timeslot_version_dispatch.2.1 ⟨false, 50, []⟩ rfl,
   C4_timeslot_version_dispatch.2.2.1 ⟨false, 50, []⟩ rfl⟩
